import Mathlib

/-!
Verification development for the LuminReplay replay-buffer orchestration
engine (`src/electron/obs.ts`).  The definitions below are a shallow
embedding of the geometry, resolution-policy, save-correlator and
post-capture-splitter code of `OBSManager`; machine numbers are modelled
with `Int` (pixel coordinates) and `Rat` (scale factors), and the
asynchronous promise/signal machinery is modelled as explicit state
passing over a record of the manager's mutable fields.
-/

namespace LuminReplay

/-- JavaScript `Math.round` on the exact rational value: round half
toward positive infinity, i.e. `floor (q + 1/2)`. -/
def jsRound (q : ℚ) : ℤ := ⌊q + 1/2⌋

/-- One entry of `getMonitors()` / `screen.getAllDisplays()`:
`{x, y, width, height}` of `display.bounds` (the `id`/`index` fields are
positional in all the code paths modelled here). -/
structure Display where
  x : ℤ
  y : ℤ
  width : ℤ
  height : ℤ
deriving DecidableEq, Repr

/-- A `{width, height}` resolution pair. -/
structure Res where
  width : ℤ
  height : ℤ
deriving DecidableEq, Repr

/-- The `minX/minY/maxX/maxY` accumulator that `setupVideo`,
`setupScene` and `processReplay` all compute with their
`displays.forEach` loop. -/
structure BBox where
  minX : ℤ
  minY : ℤ
  maxX : ℤ
  maxY : ℤ
deriving DecidableEq, Repr

/-- One step of the bounding-box `forEach` body for `i > 0`
(`if (d.bounds.x < minX) minX = d.bounds.x;` and the three analogous
updates). -/
def boundsFoldStep (b : BBox) (d : Display) : BBox :=
  { minX := min b.minX d.x
    minY := min b.minY d.y
    maxX := max b.maxX (d.x + d.width)
    maxY := max b.maxY (d.y + d.height) }

/-- The bounding-box loop of `setupVideo` / `setupScene` /
`processReplay`: at `i = 0` every `i === 0 ||` guard fires, so the
accumulator is initialised from the first display and folded over the
rest; an empty list leaves the `let minX = 0, ...` initialisers. -/
def computeBBox : List Display → BBox
  | [] => ⟨0, 0, 0, 0⟩
  | d :: ds => ds.foldl boundsFoldStep ⟨d.x, d.y, d.x + d.width, d.y + d.height⟩

/-- `getResolutionFromPreset` (identical helper in `setupVideo`,
`setupScene` and `processReplay`): switch on the preset string with the
`native` case as the `default`, scaling height-presets proportionally
(`const scale = H / nativeH; width = Math.round(nativeW * scale)`) and
defaulting a missing custom resolution to 1920x1080. -/
def getResolutionFromPreset (preset : String) (customRes : Option Res)
    (nativeW nativeH : ℤ) : Res :=
  if preset = "1080p" then
    { width := jsRound ((nativeW : ℚ) * ((1080 : ℚ) / (nativeH : ℚ))), height := 1080 }
  else if preset = "720p" then
    { width := jsRound ((nativeW : ℚ) * ((720 : ℚ) / (nativeH : ℚ))), height := 720 }
  else if preset = "480p" then
    { width := jsRound ((nativeW : ℚ) * ((480 : ℚ) / (nativeH : ℚ))), height := 480 }
  else if preset = "custom" then
    customRes.getD { width := 1920, height := 1080 }
  else
    { width := nativeW, height := nativeH }

/-- `allDisplays.filter((_, i) => enabledMonitors.includes(i))`:
index-based filtering of the display list by the enabled-monitor
indices. -/
def filterEnabled (ds : List Display) (idxs : List ℕ) : List Display :=
  (ds.enum.filter (fun p => p.1 ∈ idxs)).map Prod.snd

/-- The active display set of `setupVideo` / `setupScene`: all displays
when `enabledMonitors` is `undefined`, the index-filtered subset
otherwise, falling back to all displays when the filtered set is empty
(`if (displays.length === 0) displays.push(...allDisplays)`). -/
def activeDisplays (allDisplays : List Display) (enabledMonitors : Option (List ℕ)) :
    List Display :=
  let displays := match enabledMonitors with
    | none => allDisplays
    | some idxs => filterEnabled allDisplays idxs
  if displays.length = 0 then allDisplays else displays

/-- The native bounding rect computed by `setupVideo` (and identically
by `setupScene`): the bounding box of the enabled display subset. -/
def setupVideoNativeRect (allDisplays : List Display)
    (enabledMonitors : Option (List ℕ)) : BBox :=
  computeBBox (activeDisplays allDisplays enabledMonitors)

/-- The output (encoded) resolution `setupVideo` writes into the
engine's `Output` video setting, derived from the recording-time native
rect. -/
def setupVideoOutputRes (allDisplays : List Display)
    (enabledMonitors : Option (List ℕ)) (preset : String) (customRes : Option Res) : Res :=
  let b := setupVideoNativeRect allDisplays enabledMonitors
  getResolutionFromPreset preset customRes (b.maxX - b.minX) (b.maxY - b.minY)

/-- The native-to-output horizontal scale factor in effect when the file
is recorded: the engine downscales the recording-time native canvas to
`setupVideoOutputRes`, so the recorded scale is output width over
recording-time native width (spec sections 4.2 and 4.6). -/
def setupVideoOutputScaleX (allDisplays : List Display)
    (enabledMonitors : Option (List ℕ)) (preset : String) (customRes : Option Res) : ℚ :=
  let b := setupVideoNativeRect allDisplays enabledMonitors
  ((setupVideoOutputRes allDisplays enabledMonitors preset customRes).width : ℚ) /
    ((b.maxX - b.minX : ℤ) : ℚ)

/-- Vertical analogue of `setupVideoOutputScaleX`. -/
def setupVideoOutputScaleY (allDisplays : List Display)
    (enabledMonitors : Option (List ℕ)) (preset : String) (customRes : Option Res) : ℚ :=
  let b := setupVideoNativeRect allDisplays enabledMonitors
  ((setupVideoOutputRes allDisplays enabledMonitors preset customRes).height : ℚ) /
    ((b.maxY - b.minY : ℤ) : ℚ)

/-- The native bounding rect `processReplay` computes: it iterates over
`this.getMonitors()`, which maps over `screen.getAllDisplays()` with no
enabled-monitor filtering. -/
def processReplayNativeRect (allDisplays : List Display) : BBox :=
  computeBBox allDisplays

/-- `processReplay`'s output resolution: `getResolutionFromPreset`
applied to its own (unfiltered) native rect. -/
def processReplayOutputRes (allDisplays : List Display)
    (preset : String) (customRes : Option Res) : Res :=
  let b := processReplayNativeRect allDisplays
  getResolutionFromPreset preset customRes (b.maxX - b.minX) (b.maxY - b.minY)

/-- `const scaleX = outputRes.width / nativeWidth;` in `processReplay`. -/
def processReplayScaleX (allDisplays : List Display)
    (preset : String) (customRes : Option Res) : ℚ :=
  let b := processReplayNativeRect allDisplays
  ((processReplayOutputRes allDisplays preset customRes).width : ℚ) /
    ((b.maxX - b.minX : ℤ) : ℚ)

/-- `const scaleY = outputRes.height / nativeHeight;` in `processReplay`. -/
def processReplayScaleY (allDisplays : List Display)
    (preset : String) (customRes : Option Res) : ℚ :=
  let b := processReplayNativeRect allDisplays
  ((processReplayOutputRes allDisplays preset customRes).height : ℚ) /
    ((b.maxY - b.minY : ℤ) : ℚ)

/-- Display A of the spec's end-to-end scenarios: 1920x1080 at (0,0). -/
def dispA : Display := ⟨0, 0, 1920, 1080⟩

/-- Display B of the spec's end-to-end scenarios: 1920x1080 at (1920,0). -/
def dispB : Display := ⟨1920, 0, 1920, 1080⟩

/-- A 1920x1200 display at (1920,0), used to separate recording-time and
split-time scale factors. -/
def dispC : Display := ⟨1920, 0, 1920, 1200⟩

/-- The `crop=w:h:x:y` rectangle handed to the transcoder. -/
structure CropRect where
  x : ℤ
  y : ℤ
  w : ℤ
  h : ℤ
deriving DecidableEq, Repr

/-- The crop rectangle `processOne` computes for monitor `index`
(`displays[index]` missing yields `none`, the "Monitor not found"
rejection): offsets relative to the canvas origin and sizes, each
scaled to output resolution and rounded. -/
def cropForIndex (displays : List Display) (preset : String) (customRes : Option Res)
    (index : ℕ) : Option CropRect :=
  (displays.get? index).map fun monitor =>
    let b := processReplayNativeRect displays
    let sX := processReplayScaleX displays preset customRes
    let sY := processReplayScaleY displays preset customRes
    { x := jsRound (((monitor.x - b.minX : ℤ) : ℚ) * sX)
      y := jsRound (((monitor.y - b.minY : ℤ) : ℚ) * sY)
      w := jsRound ((monitor.width : ℚ) * sX)
      h := jsRound ((monitor.height : ℚ) * sY) }

/-- Split a character list at the match of `/(\.[^.]+)$/`: the trailing
run of non-dot characters must be non-empty and preceded by a dot;
returns the part before the dot and the dot-plus-suffix, or `none` when
the regex does not match. -/
def lastDotSplit (s : List Char) : Option (List Char × List Char) :=
  let rev := s.reverse
  let pre := rev.takeWhile (fun c => c != '.')
  if pre.length < rev.length ∧ pre ≠ [] then
    some (s.take (s.length - pre.length - 1), '.' :: pre.reverse)
  else none

/-- `filePath.replace(/(\.[^.]+)$/, `-monitor-N$1`)` with
`N = index + 1`: insert the monitor ordinal before the extension, or
leave the path unchanged when it has no extension. -/
def outputName (filePath : String) (index : ℕ) : String :=
  match lastDotSplit filePath.toList with
  | some (base, ext) =>
      String.mk (base ++ ("-monitor-" ++ toString (index + 1)).toList ++ ext)
  | none => filePath

/-- The `processOne` closure of `processReplay`: reject with
"Monitor not found" for an out-of-range index, otherwise run the
transcoder (modelled as an oracle returning `some err` on its `error`
event and `none` on `end`) on the computed crop and output name,
resolving with the output name on success. -/
def processOne (displays : List Display) (preset : String) (customRes : Option Res)
    (filePath : String) (transcode : CropRect → String → Option String)
    (index : ℕ) : Except String String :=
  match cropForIndex displays preset customRes index with
  | none => Except.error "Monitor not found"
  | some c =>
      match transcode c (outputName filePath index) with
      | some err => Except.error err
      | none => Except.ok (outputName filePath index)

/-- The monitor indices the `all` branch processes: every display index,
filtered by `enabledMonitors` when that is present. -/
def monitorsToProcess (numDisplays : ℕ) (enabledMonitors : Option (List ℕ)) : List ℕ :=
  match enabledMonitors with
  | none => List.range numDisplays
  | some e => (List.range numDisplays).filter (fun i => i ∈ e)

/-- `await Promise.all(...)` over per-monitor crop results: the combined
operation resolves with all values when every result resolved and
rejects with a rejection otherwise. -/
def sequenceResults : List (Except String String) → Except String (List String)
  | [] => Except.ok []
  | Except.error e :: _ => Except.error e
  | Except.ok r :: rest => (sequenceResults rest).map (fun rs => r :: rs)

/-- `Except.isOk` for the transcode results. -/
def resultOk : Except String String → Bool
  | Except.ok _ => true
  | Except.error _ => false

/-- `processReplay`: fail fast when the file does not exist; for target
`none` (= `'all'`) run every enabled monitor's crop, deleting the
original only after `Promise.all` resolves; for a single target run one
crop and delete on success.  The second component records whether the
original combined file was deleted (`fs.unlinkSync` reached). -/
def processReplay (displays : List Display) (enabledMonitors : Option (List ℕ))
    (preset : String) (customRes : Option Res) (filePath : String) (fileExists : Bool)
    (transcode : CropRect → String → Option String) (target : Option ℕ) :
    Except String (List String) × Bool :=
  if fileExists = false then
    (Except.error ("Replay file not found: " ++ filePath), false)
  else
    match target with
    | none =>
        let idxs := monitorsToProcess displays.length enabledMonitors
        match sequenceResults (idxs.map (processOne displays preset customRes filePath transcode)) with
        | Except.ok rs => (Except.ok rs, true)
        | Except.error e => (Except.error e, false)
    | some i =>
        match processOne displays preset customRes filePath transcode i with
        | Except.ok r => (Except.ok [r], true)
        | Except.error e => (Except.error e, false)

/-- A file path split as `path.dirname` / `path.basename`, so that the
rename step's `path.join(dir, newFileName)` is directory-preserving by
construction. -/
structure RPath where
  dir : String
  base : String
deriving DecidableEq, Repr

/-- The rename normalization of the `Wrote` handler: when the reported
basename starts with the default `Replay` prefix
(`fileName.startsWith('Replay')`, modelled on the character list),
replace that leading occurrence with `LuminReplay` (success path of
`fs.renameSync`). -/
def normalizeReplayPath (p : RPath) : RPath :=
  if "Replay".toList.isPrefixOf p.base.toList then
    { dir := p.dir, base := "LuminReplay" ++ p.base.drop 6 }
  else p

/-- How a `saveReplayBuffer` caller's promise settles. -/
inductive SaveOutcome where
  | resolved (p : RPath)
  | rejected (msg : String)
deriving DecidableEq, Repr

/-- The mutable fields of `OBSManager` relevant to the lifecycle and
save-correlator claims, plus the observable history: `armed` is the set
of not-yet-cleared `setTimeout` handles (one per save request, keyed by
the request's id), `results` the settlements of caller promises (most
recent first), and `triggers` counts
`OBS_service_processReplayBufferHotkey` invocations. -/
structure ObsState where
  initialized : Bool
  replayBufferRunning : Bool
  isRestarting : Bool
  pendingStopWait : Bool
  pendingReplaySave : Option ℕ
  armed : List ℕ
  results : List (ℕ × SaveOutcome)
  lastReplayPath : Option RPath
  triggers : ℕ
deriving DecidableEq, Repr

/-- `saveReplayBuffer` for the request with id `id`: the two
precondition checks throw before anything is registered (recorded here
as an immediate rejection outcome for the caller); otherwise a timeout
is armed, the single pending slot is overwritten with this request's
handlers, and the engine's save hotkey is triggered. -/
def saveReplayBuffer (id : ℕ) (st : ObsState) : ObsState :=
  if st.initialized = false then
    { st with results := (id, SaveOutcome.rejected "OBS not initialized") :: st.results }
  else if st.replayBufferRunning = false then
    { st with results := (id, SaveOutcome.rejected "Replay buffer is not running") :: st.results }
  else
    { st with pendingReplaySave := some id
              armed := id :: st.armed
              triggers := st.triggers + 1 }

/-- The `setTimeout` callback of request `id` firing after 10 seconds:
the one-shot timer is consumed, and if the pending slot is non-null
(whichever request now owns it) the slot is cleared and *this* request's
promise is rejected with the timeout error. -/
def timeoutFire (id : ℕ) (st : ObsState) : ObsState :=
  if id ∈ st.armed then
    let st' := { st with armed := st.armed.erase id }
    match st'.pendingReplaySave with
    | some _ =>
        { st' with pendingReplaySave := none
                   results := (id, SaveOutcome.rejected
                     "Replay save timeout - no response from OBS") :: st'.results }
    | none => st'
  else st

/-- The `ReplayBuffer`-typed output signals `handleOutputSignal` acts
on. -/
inductive ObsSignal where
  | start
  | stop
  | wrote (reported : RPath)
  | writeError (err : String)
deriving DecidableEq, Repr

/-- `handleOutputSignal` on a `ReplayBuffer` signal.  The returned flag
records whether a pending stop-wait resolver was invoked (the `Stop`
branch calls `this.pendingStopResolve()` without clearing it).  `Wrote`
normalizes the reported path, records it as `lastReplayPath`, and when a
save is pending resolves it (its handler clears that save's own
timeout); `WriteError` rejects a pending save with the engine-supplied
message, defaulting the empty (falsy) string to "Write error". -/
def handleOutputSignal : ObsSignal → ObsState → ObsState × Bool
  | ObsSignal.start, st => ({ st with replayBufferRunning := true }, false)
  | ObsSignal.stop, st =>
      if st.pendingStopWait then (st, true)
      else if st.isRestarting then (st, false)
      else ({ st with replayBufferRunning := false }, false)
  | ObsSignal.wrote reported, st =>
      let p := normalizeReplayPath reported
      match st.pendingReplaySave with
      | some j =>
          ({ st with lastReplayPath := some p
                     pendingReplaySave := none
                     armed := st.armed.erase j
                     results := (j, SaveOutcome.resolved p) :: st.results }, false)
      | none => ({ st with lastReplayPath := some p }, false)
  | ObsSignal.writeError err, st =>
      match st.pendingReplaySave with
      | some j =>
          ({ st with pendingReplaySave := none
                     armed := st.armed.erase j
                     results := (j, SaveOutcome.rejected
                       (if err = "" then "Write error" else err)) :: st.results }, false)
      | none => (st, false)

/-- The events that can touch the save registry between a request and
its settlement. -/
inductive ObsEvent where
  | request (id : ℕ)
  | timeoutFire (id : ℕ)
  | signal (s : ObsSignal)
deriving DecidableEq, Repr

/-- One interleaving step of the manager. -/
def obsStep : ObsEvent → ObsState → ObsState
  | ObsEvent.request id, st => saveReplayBuffer id st
  | ObsEvent.timeoutFire id, st => timeoutFire id st
  | ObsEvent.signal s, st => (handleOutputSignal s st).1

/-- The settlements recorded for the request with id `id`. -/
def settledFor (id : ℕ) (st : ObsState) : List (ℕ × SaveOutcome) :=
  st.results.filter (fun r => r.1 == id)

lemma takeWhile_ne_dot_append (l r : List Char) (hl : ∀ c ∈ l, c ≠ '.') :
    (l ++ '.' :: r).takeWhile (fun c => c != '.') = l := by
  induction l with
  | nil => simp [List.takeWhile_cons]
  | cons c l ih =>
      have hc : (c != '.') = true := bne_iff_ne.mpr (hl c (by simp))
      simp only [List.cons_append, List.takeWhile_cons, hc, if_true]
      rw [ih (fun d hd => hl d (by simp [hd]))]

lemma lastDotSplit_append (base ext : List Char) (h1 : ext ≠ []) (h2 : ∀ c ∈ ext, c ≠ '.') :
    lastDotSplit (base ++ '.' :: ext) = some (base, '.' :: ext) := by
  have hrev : (base ++ '.' :: ext).reverse = ext.reverse ++ '.' :: base.reverse := by
    simp [List.reverse_append]
  have htw : ((base ++ '.' :: ext).reverse).takeWhile (fun c => c != '.') = ext.reverse := by
    rw [hrev]
    exact takeWhile_ne_dot_append _ _ (fun c hc => h2 c (List.mem_reverse.mp hc))
  have hlen : (base ++ '.' :: ext).length = base.length + 1 + ext.length := by
    simp [List.length_append]; omega
  unfold lastDotSplit
  simp only [htw, List.length_reverse]
  rw [if_pos]
  · congr 1
    congr 1
    · rw [hlen]
      have : base.length + 1 + ext.length - ext.length - 1 = base.length := by omega
      rw [this]
      have hb : (base ++ '.' :: ext).take base.length = base := List.take_left' rfl
      exact hb
    · simp
  · constructor
    · rw [hlen]; omega
    · simpa [List.reverse_eq_nil_iff] using h1

lemma outputName_append (base ext : List Char) (i : ℕ) (h1 : ext ≠ [])
    (h2 : ∀ c ∈ ext, c ≠ '.') :
    outputName (String.mk (base ++ '.' :: ext)) i =
      String.mk (base ++ ("-monitor-" ++ toString (i + 1)).toList ++ '.' :: ext) := by
  unfold outputName
  have : (String.mk (base ++ '.' :: ext)).toList = base ++ '.' :: ext := rfl
  rw [this, lastDotSplit_append base ext h1 h2]

lemma foldl_min_le_init (l : List ℤ) (a : ℤ) : l.foldl min a ≤ a := by
  induction l generalizing a with
  | nil => simp
  | cons x l ih => exact le_trans (ih (min a x)) (min_le_left a x)

lemma foldl_min_le_mem (l : List ℤ) (a : ℤ) {x : ℤ} (hx : x ∈ l) : l.foldl min a ≤ x := by
  induction l generalizing a with
  | nil => cases hx
  | cons y l ih =>
      rcases List.mem_cons.mp hx with h | h
      · subst h
        exact le_trans (foldl_min_le_init l (min a x)) (min_le_right a x)
      · exact ih (min a y) h

lemma foldl_min_eq_init_or_mem (l : List ℤ) (a : ℤ) :
    l.foldl min a = a ∨ l.foldl min a ∈ l := by
  induction l generalizing a with
  | nil => simp
  | cons x l ih =>
      rcases ih (min a x) with h | h
      · rcases min_cases a x with ⟨he, _⟩ | ⟨he, _⟩
        · left; rw [List.foldl_cons, h, he]
        · right; rw [List.foldl_cons, h, he]; exact List.mem_cons_self x l
      · right; exact List.mem_cons_of_mem x h

lemma le_foldl_max_init (l : List ℤ) (a : ℤ) : a ≤ l.foldl max a := by
  induction l generalizing a with
  | nil => simp
  | cons x l ih => exact le_trans (le_max_left a x) (ih (max a x))

lemma le_foldl_max_mem (l : List ℤ) (a : ℤ) {x : ℤ} (hx : x ∈ l) : x ≤ l.foldl max a := by
  induction l generalizing a with
  | nil => cases hx
  | cons y l ih =>
      rcases List.mem_cons.mp hx with h | h
      · subst h
        exact le_trans (le_max_right a x) (le_foldl_max_init l (max a x))
      · exact ih (max a y) h

lemma foldl_max_eq_init_or_mem (l : List ℤ) (a : ℤ) :
    l.foldl max a = a ∨ l.foldl max a ∈ l := by
  induction l generalizing a with
  | nil => simp
  | cons x l ih =>
      rcases ih (max a x) with h | h
      · rcases max_cases a x with ⟨he, _⟩ | ⟨he, _⟩
        · left; rw [List.foldl_cons, h, he]
        · right; rw [List.foldl_cons, h, he]; exact List.mem_cons_self x l
      · right; exact List.mem_cons_of_mem x h

lemma foldl_boundsFoldStep (ds : List Display) (b : BBox) :
    ds.foldl boundsFoldStep b =
      ⟨(ds.map Display.x).foldl min b.minX,
       (ds.map Display.y).foldl min b.minY,
       (ds.map (fun d => d.x + d.width)).foldl max b.maxX,
       (ds.map (fun d => d.y + d.height)).foldl max b.maxY⟩ := by
  induction ds generalizing b with
  | nil => rfl
  | cons d ds ih =>
      simp only [List.foldl_cons, List.map_cons]
      rw [ih]
      rfl

lemma computeBBox_cons (d : Display) (ds : List Display) :
    computeBBox (d :: ds) =
      ⟨(ds.map Display.x).foldl min d.x,
       (ds.map Display.y).foldl min d.y,
       (ds.map (fun e => e.x + e.width)).foldl max (d.x + d.width),
       (ds.map (fun e => e.y + e.height)).foldl max (d.y + d.height)⟩ := by
  unfold computeBBox
  exact foldl_boundsFoldStep ds _

lemma activeDisplays_none (allDisplays : List Display) :
    activeDisplays allDisplays none = allDisplays := by
  unfold activeDisplays
  simp

lemma activeDisplays_some (allDisplays : List Display) (idxs : List ℕ) :
    activeDisplays allDisplays (some idxs) =
      if (filterEnabled allDisplays idxs).length = 0 then allDisplays
      else filterEnabled allDisplays idxs := rfl

lemma filterEnabled_subset (allDisplays : List Display) (idxs : List ℕ) :
    ∀ d ∈ filterEnabled allDisplays idxs, d ∈ allDisplays := by
  intro d hd
  unfold filterEnabled at hd
  have hsub : ((allDisplays.enum.filter (fun p => p.1 ∈ idxs)).map Prod.snd).Sublist
      (allDisplays.enum.map Prod.snd) :=
    (List.filter_sublist allDisplays.enum).map Prod.snd
  have := hsub.mem hd
  rwa [List.enum_map_snd] at this

lemma activeDisplays_subset (allDisplays : List Display) (enabled : Option (List ℕ)) :
    ∀ d ∈ activeDisplays allDisplays enabled, d ∈ allDisplays := by
  intro d hd
  cases enabled with
  | none => rwa [activeDisplays_none] at hd
  | some idxs =>
      rw [activeDisplays_some] at hd
      split at hd
      · exact hd
      · exact filterEnabled_subset allDisplays idxs d hd

lemma activeDisplays_ne_nil (allDisplays : List Display) (enabled : Option (List ℕ))
    (h : allDisplays ≠ []) : activeDisplays allDisplays enabled ≠ [] := by
  cases enabled with
  | none => rwa [activeDisplays_none]
  | some idxs =>
      rw [activeDisplays_some]
      split
      · exact h
      · rename_i hlen
        intro hcon
        exact hlen (by rw [hcon]; rfl)

lemma sequenceResults_ok (l : List (Except String String)) {rs : List String}
    (h : sequenceResults l = Except.ok rs) : ∀ x ∈ l, resultOk x = true := by
  induction l generalizing rs with
  | nil => intro x hx; cases hx
  | cons a l ih =>
      intro x hx
      match a, h with
      | Except.ok r, h =>
          rcases List.mem_cons.mp hx with hh | hh
          · subst hh; rfl
          · unfold sequenceResults at h
            cases hseq : sequenceResults l with
            | ok rs' => exact ih hseq x hh
            | error e => rw [hseq] at h; cases h

lemma sequenceResults_all_ok (l : List (Except String String))
    (h : ∀ x ∈ l, resultOk x = true) : ∃ rs, sequenceResults l = Except.ok rs := by
  induction l with
  | nil => exact ⟨[], rfl⟩
  | cons a l ih =>
      match a with
      | Except.error e => cases h _ (List.mem_cons_self _ _)
      | Except.ok r =>
          obtain ⟨rs, hrs⟩ := ih (fun x hx => h x (List.mem_cons_of_mem _ hx))
          refine ⟨r :: rs, ?_⟩
          unfold sequenceResults
          rw [hrs]
          rfl

lemma sequenceResults_error (l : List (Except String String))
    (h : ∃ x ∈ l, resultOk x = false) : ∃ e, sequenceResults l = Except.error e := by
  induction l with
  | nil => obtain ⟨x, hx, _⟩ := h; cases hx
  | cons a l ih =>
      match a with
      | Except.error e => exact ⟨e, rfl⟩
      | Except.ok r =>
          obtain ⟨x, hx, hfalse⟩ := h
          rcases List.mem_cons.mp hx with hh | hh
          · subst hh; cases hfalse
          · obtain ⟨e, he⟩ := ih ⟨x, hh, hfalse⟩
            refine ⟨e, ?_⟩
            unfold sequenceResults
            rw [he]
            rfl

/-- C1: the claim states that for every display layout and enabled set
the splitter's native rect and output scale factors equal those of the
recording configuration.  The code refutes this: `processReplay`
computes its rect over all connected displays while `setupVideo`
filters to the enabled subset, so with only display B of two
side-by-side displays enabled the rects differ, and with displays of
unequal heights the vertical scale factors differ as well. -/
theorem processReplay_setupVideo_geometry_mismatch :
    setupVideoNativeRect [dispA, dispB] (some [1]) = ⟨1920, 0, 3840, 1080⟩ ∧
    processReplayNativeRect [dispA, dispB] = ⟨0, 0, 3840, 1080⟩ ∧
    setupVideoNativeRect [dispA, dispB] (some [1]) ≠ processReplayNativeRect [dispA, dispB] ∧
    setupVideoOutputScaleY [dispA, dispC] (some [0]) "720p" none = 2/3 ∧
    processReplayScaleY [dispA, dispC] "720p" none = 3/5 ∧
    setupVideoOutputScaleY [dispA, dispC] (some [0]) "720p" none ≠
      processReplayScaleY [dispA, dispC] "720p" none := by
  refine ⟨?_, ?_, ?_, ?_, ?_, ?_⟩ <;>
    norm_num +decide [setupVideoNativeRect, setupVideoOutputScaleY, setupVideoOutputRes,
      processReplayNativeRect, processReplayScaleY, processReplayOutputRes, activeDisplays,
      filterEnabled, computeBBox, boundsFoldStep, getResolutionFromPreset, jsRound,
      dispA, dispB, dispC, List.enum]

/-- C2: for every monitor in the display list the splitter computes
`cropX = round((x - minX) * scaleX)`, `cropY`, `cropW`, `cropH`
analogously, and suffixes `-monitor-<ordinal>` before the extension of
the output file name; in the spec's two-display `h720` scenario the
crop for monitor B is `(1280, 0, 1280, 720)` from output resolution
`2560x720`. -/
theorem processOne_crop_and_naming :
    (∀ (displays : List Display) (preset : String) (customRes : Option Res) (i : ℕ)
        (m : Display), displays.get? i = some m →
        cropForIndex displays preset customRes i = some
          { x := jsRound (((m.x - (processReplayNativeRect displays).minX : ℤ) : ℚ) *
                   processReplayScaleX displays preset customRes)
            y := jsRound (((m.y - (processReplayNativeRect displays).minY : ℤ) : ℚ) *
                   processReplayScaleY displays preset customRes)
            w := jsRound ((m.width : ℚ) * processReplayScaleX displays preset customRes)
            h := jsRound ((m.height : ℚ) * processReplayScaleY displays preset customRes) }) ∧
    (∀ (base ext : List Char) (i : ℕ), ext ≠ [] → (∀ c ∈ ext, c ≠ '.') →
        outputName (String.mk (base ++ '.' :: ext)) i =
          String.mk (base ++ ("-monitor-" ++ toString (i + 1)).toList ++ '.' :: ext)) ∧
    cropForIndex [dispA, dispB] "720p" none 1 = some ⟨1280, 0, 1280, 720⟩ ∧
    processReplayOutputRes [dispA, dispB] "720p" none = ⟨2560, 720⟩ ∧
    outputName "replay.mp4" 1 = "replay-monitor-2.mp4" := by
  refine ⟨?_, ?_, ?_, ?_, ?_⟩
  · intro displays preset customRes i m hm
    unfold cropForIndex
    rw [hm]
    rfl
  · exact fun base ext i h1 h2 => outputName_append base ext i h1 h2
  · norm_num +decide [cropForIndex, processReplayNativeRect, processReplayScaleX,
      processReplayScaleY, processReplayOutputRes, computeBBox, boundsFoldStep,
      getResolutionFromPreset, jsRound, dispA, dispB, List.get?]
  · norm_num +decide [processReplayOutputRes, processReplayNativeRect, computeBBox,
      boundsFoldStep, getResolutionFromPreset, jsRound, dispA, dispB]
  · rfl

/-- Witness for C2 at concrete inputs: monitor B of the two-display
layout and a concrete base/extension pair. -/
theorem processOne_crop_and_naming_witness :
    cropForIndex [dispA, dispB] "720p" none 1 = some
      { x := jsRound (((dispB.x - (processReplayNativeRect [dispA, dispB]).minX : ℤ) : ℚ) *
               processReplayScaleX [dispA, dispB] "720p" none)
        y := jsRound (((dispB.y - (processReplayNativeRect [dispA, dispB]).minY : ℤ) : ℚ) *
               processReplayScaleY [dispA, dispB] "720p" none)
        w := jsRound ((dispB.width : ℚ) * processReplayScaleX [dispA, dispB] "720p" none)
        h := jsRound ((dispB.height : ℚ) * processReplayScaleY [dispA, dispB] "720p" none) } ∧
    outputName (String.mk ("clip".toList ++ '.' :: "mp4".toList)) 0 =
      String.mk ("clip".toList ++ ("-monitor-" ++ toString (0 + 1)).toList ++
        '.' :: "mp4".toList) :=
  ⟨processOne_crop_and_naming.1 [dispA, dispB] "720p" none 1 dispB rfl,
   processOne_crop_and_naming.2.1 "clip".toList "mp4".toList 0 (by decide) (by decide)⟩

/-- C3: the resolution policy returns the native size unchanged for the
`native` preset, fixed heights 1080/720/480 with aspect-preserving
rounded widths for the height presets, the stored custom size for
`custom`, and 1920x1080 when no custom value is present. -/
theorem getResolutionFromPreset_policy (c : Option Res) (nW nH : ℤ) (h : 0 < nH) :
    getResolutionFromPreset "native" c nW nH = ⟨nW, nH⟩ ∧
    getResolutionFromPreset "1080p" c nW nH = ⟨jsRound ((nW : ℚ) * 1080 / (nH : ℚ)), 1080⟩ ∧
    getResolutionFromPreset "720p" c nW nH = ⟨jsRound ((nW : ℚ) * 720 / (nH : ℚ)), 720⟩ ∧
    getResolutionFromPreset "480p" c nW nH = ⟨jsRound ((nW : ℚ) * 480 / (nH : ℚ)), 480⟩ ∧
    (∀ cr : Res, getResolutionFromPreset "custom" (some cr) nW nH = cr) ∧
    getResolutionFromPreset "custom" none nW nH = ⟨1920, 1080⟩ := by
  refine ⟨?_, ?_, ?_, ?_, ?_, ?_⟩ <;>
    simp +decide [getResolutionFromPreset, mul_div_assoc]

/-- Witness for C3 on a 3840x1080 native canvas. -/
theorem getResolutionFromPreset_policy_witness :
    (0 : ℤ) < 1080 ∧
    getResolutionFromPreset "native" none 3840 1080 = ⟨3840, 1080⟩ ∧
    getResolutionFromPreset "720p" none 3840 1080 = ⟨2560, 720⟩ ∧
    getResolutionFromPreset "custom" (some ⟨640, 480⟩) 3840 1080 = ⟨640, 480⟩ ∧
    getResolutionFromPreset "custom" none 3840 1080 = ⟨1920, 1080⟩ := by
  have h := getResolutionFromPreset_policy none 3840 1080 (by decide)
  exact ⟨by decide, h.1, h.2.2.1.trans (by norm_num [jsRound]),
    h.2.2.2.2.1 ⟨640, 480⟩, h.2.2.2.2.2⟩

/-- C4: the recording-time bounding rect is the min/max hull of the
active display set only; the active set is all displays when the
enabled set is absent or when it selects no display (fallback), the
rect encloses every active display, its corners are attained, and with
positive display sizes the canvas is never zero-sized. -/
theorem setupVideo_bounding_rect (allDisplays : List Display) (enabled : Option (List ℕ))
    (hne : allDisplays ≠ []) :
    activeDisplays allDisplays enabled ≠ [] ∧
    (enabled = none → activeDisplays allDisplays enabled = allDisplays) ∧
    (∀ idxs, enabled = some idxs → filterEnabled allDisplays idxs = [] →
        activeDisplays allDisplays enabled = allDisplays) ∧
    (∀ d ∈ activeDisplays allDisplays enabled,
        (setupVideoNativeRect allDisplays enabled).minX ≤ d.x ∧
        (setupVideoNativeRect allDisplays enabled).minY ≤ d.y ∧
        d.x + d.width ≤ (setupVideoNativeRect allDisplays enabled).maxX ∧
        d.y + d.height ≤ (setupVideoNativeRect allDisplays enabled).maxY) ∧
    ((∃ d ∈ activeDisplays allDisplays enabled,
        d.x = (setupVideoNativeRect allDisplays enabled).minX) ∧
     (∃ d ∈ activeDisplays allDisplays enabled,
        d.y = (setupVideoNativeRect allDisplays enabled).minY) ∧
     (∃ d ∈ activeDisplays allDisplays enabled,
        d.x + d.width = (setupVideoNativeRect allDisplays enabled).maxX) ∧
     (∃ d ∈ activeDisplays allDisplays enabled,
        d.y + d.height = (setupVideoNativeRect allDisplays enabled).maxY)) ∧
    ((∀ d ∈ allDisplays, 0 < d.width ∧ 0 < d.height) →
        0 < (setupVideoNativeRect allDisplays enabled).maxX -
              (setupVideoNativeRect allDisplays enabled).minX ∧
        0 < (setupVideoNativeRect allDisplays enabled).maxY -
              (setupVideoNativeRect allDisplays enabled).minY) := by
  have hact : activeDisplays allDisplays enabled ≠ [] := activeDisplays_ne_nil _ _ hne
  obtain ⟨d0, ds, hcons⟩ : ∃ d0 ds, activeDisplays allDisplays enabled = d0 :: ds := by
    cases h : activeDisplays allDisplays enabled with
    | nil => exact absurd h hact
    | cons a l => exact ⟨a, l, rfl⟩
  have hrect : setupVideoNativeRect allDisplays enabled =
      ⟨(ds.map Display.x).foldl min d0.x,
       (ds.map Display.y).foldl min d0.y,
       (ds.map (fun e => e.x + e.width)).foldl max (d0.x + d0.width),
       (ds.map (fun e => e.y + e.height)).foldl max (d0.y + d0.height)⟩ := by
    unfold setupVideoNativeRect
    rw [hcons, computeBBox_cons]
  have hencl : ∀ d ∈ activeDisplays allDisplays enabled,
      (setupVideoNativeRect allDisplays enabled).minX ≤ d.x ∧
      (setupVideoNativeRect allDisplays enabled).minY ≤ d.y ∧
      d.x + d.width ≤ (setupVideoNativeRect allDisplays enabled).maxX ∧
      d.y + d.height ≤ (setupVideoNativeRect allDisplays enabled).maxY := by
    intro d hd
    rw [hcons] at hd
    rw [hrect]
    rcases List.mem_cons.mp hd with h | h
    · subst h
      exact ⟨foldl_min_le_init _ _, foldl_min_le_init _ _,
        le_foldl_max_init _ _, le_foldl_max_init _ _⟩
    · exact ⟨foldl_min_le_mem _ _ (List.mem_map_of_mem Display.x h),
        foldl_min_le_mem _ _ (List.mem_map_of_mem Display.y h),
        le_foldl_max_mem _ _ (List.mem_map_of_mem (fun e => e.x + e.width) h),
        le_foldl_max_mem _ _ (List.mem_map_of_mem (fun e => e.y + e.height) h)⟩
  refine ⟨hact, ?_, ?_, hencl, ⟨?_, ?_, ?_, ?_⟩, ?_⟩
  · intro h; subst h; exact activeDisplays_none allDisplays
  · intro idxs he hfe
    subst he
    rw [activeDisplays_some, hfe]
    simp
  · rcases foldl_min_eq_init_or_mem (ds.map Display.x) d0.x with h | h
    · exact ⟨d0, by rw [hcons]; exact List.mem_cons_self d0 ds, by rw [hrect]; exact h.symm⟩
    · obtain ⟨d', hd', he⟩ := List.mem_map.mp h
      exact ⟨d', by rw [hcons]; exact List.mem_cons_of_mem d0 hd', by rw [hrect]; exact he⟩
  · rcases foldl_min_eq_init_or_mem (ds.map Display.y) d0.y with h | h
    · exact ⟨d0, by rw [hcons]; exact List.mem_cons_self d0 ds, by rw [hrect]; exact h.symm⟩
    · obtain ⟨d', hd', he⟩ := List.mem_map.mp h
      exact ⟨d', by rw [hcons]; exact List.mem_cons_of_mem d0 hd', by rw [hrect]; exact he⟩
  · rcases foldl_max_eq_init_or_mem (ds.map (fun e => e.x + e.width)) (d0.x + d0.width)
      with h | h
    · exact ⟨d0, by rw [hcons]; exact List.mem_cons_self d0 ds, by rw [hrect]; exact h.symm⟩
    · obtain ⟨d', hd', he⟩ := List.mem_map.mp h
      exact ⟨d', by rw [hcons]; exact List.mem_cons_of_mem d0 hd', by rw [hrect]; exact he⟩
  · rcases foldl_max_eq_init_or_mem (ds.map (fun e => e.y + e.height)) (d0.y + d0.height)
      with h | h
    · exact ⟨d0, by rw [hcons]; exact List.mem_cons_self d0 ds, by rw [hrect]; exact h.symm⟩
    · obtain ⟨d', hd', he⟩ := List.mem_map.mp h
      exact ⟨d', by rw [hcons]; exact List.mem_cons_of_mem d0 hd', by rw [hrect]; exact he⟩
  · intro hpos
    have hd0mem : d0 ∈ activeDisplays allDisplays enabled := by
      rw [hcons]; exact List.mem_cons_self d0 ds
    have hd0all : d0 ∈ allDisplays := activeDisplays_subset allDisplays enabled d0 hd0mem
    obtain ⟨hw, hh⟩ := hpos d0 hd0all
    obtain ⟨h1, h2, h3, h4⟩ := hencl d0 hd0mem
    constructor <;> omega

/-- Witness for C4: the two-display layout with only display B
enabled. -/
theorem setupVideo_bounding_rect_witness :
    activeDisplays [dispA, dispB] (some [1]) ≠ [] ∧
    ((setupVideoNativeRect [dispA, dispB] (some [1])).minX ≤ dispB.x ∧
     (setupVideoNativeRect [dispA, dispB] (some [1])).minY ≤ dispB.y ∧
     dispB.x + dispB.width ≤ (setupVideoNativeRect [dispA, dispB] (some [1])).maxX ∧
     dispB.y + dispB.height ≤ (setupVideoNativeRect [dispA, dispB] (some [1])).maxY) ∧
    (0 < (setupVideoNativeRect [dispA, dispB] (some [1])).maxX -
           (setupVideoNativeRect [dispA, dispB] (some [1])).minX ∧
     0 < (setupVideoNativeRect [dispA, dispB] (some [1])).maxY -
           (setupVideoNativeRect [dispA, dispB] (some [1])).minY) := by
  have h := setupVideo_bounding_rect [dispA, dispB] (some [1]) (by decide)
  exact ⟨h.1, h.2.2.2.1 dispB (by decide), h.2.2.2.2.2 (by decide)⟩

/-- C5: in the `all` branch the original combined file is deleted
exactly when every requested crop succeeded; any individual crop
failure makes the whole split fail without deleting the source, the
deletion decision being taken only after all results are in
(`Promise.all`). -/
theorem processReplay_all_deletion_policy (displays : List Display)
    (enabledMonitors : Option (List ℕ)) (preset : String) (customRes : Option Res)
    (filePath : String) (transcode : CropRect → String → Option String) :
    ((processReplay displays enabledMonitors preset customRes filePath true transcode
        none).2 = true ↔
      ∀ i ∈ monitorsToProcess displays.length enabledMonitors,
        resultOk (processOne displays preset customRes filePath transcode i) = true) ∧
    ((∃ i ∈ monitorsToProcess displays.length enabledMonitors,
        resultOk (processOne displays preset customRes filePath transcode i) = false) →
      (∃ e, (processReplay displays enabledMonitors preset customRes filePath true transcode
               none).1 = Except.error e) ∧
      (processReplay displays enabledMonitors preset customRes filePath true transcode
        none).2 = false) := by
  have hunfold : processReplay displays enabledMonitors preset customRes filePath true
      transcode none =
      match sequenceResults ((monitorsToProcess displays.length enabledMonitors).map
          (processOne displays preset customRes filePath transcode)) with
      | Except.ok rs => (Except.ok rs, true)
      | Except.error e => (Except.error e, false) := by
    unfold processReplay
    rfl
  constructor
  · constructor
    · intro hdel i hi
      rw [hunfold] at hdel
      cases hseq : sequenceResults ((monitorsToProcess displays.length enabledMonitors).map
          (processOne displays preset customRes filePath transcode)) with
      | ok rs =>
          exact sequenceResults_ok _ hseq _ (List.mem_map_of_mem _ hi)
      | error e =>
          rw [hseq] at hdel
          cases hdel
    · intro hall
      rw [hunfold]
      have hallmap : ∀ x ∈ (monitorsToProcess displays.length enabledMonitors).map
          (processOne displays preset customRes filePath transcode), resultOk x = true := by
        intro x hx
        obtain ⟨i, hi, he⟩ := List.mem_map.mp hx
        rw [← he]
        exact hall i hi
      obtain ⟨rs, hok⟩ := sequenceResults_all_ok _ hallmap
      rw [hok]
  · intro hfail
    obtain ⟨i, hi, hfalse⟩ := hfail
    obtain ⟨e, he⟩ := sequenceResults_error
      ((monitorsToProcess displays.length enabledMonitors).map
        (processOne displays preset customRes filePath transcode))
      ⟨_, List.mem_map_of_mem _ hi, hfalse⟩
    rw [hunfold, he]
    exact ⟨⟨e, rfl⟩, rfl⟩

/-- Witness for C5: a single-display split whose transcode fails does
not delete the source and fails overall. -/
theorem processReplay_all_deletion_policy_witness :
    (processReplay [dispA] none "native" none "r.mp4" true
      (fun _ _ => some "boom") none).2 = false ∧
    (∃ e, (processReplay [dispA] none "native" none "r.mp4" true
      (fun _ _ => some "boom") none).1 = Except.error e) := by
  have h := (processReplay_all_deletion_policy [dispA] none "native" none "r.mp4"
    (fun _ _ => some "boom")).2 ⟨0, by decide, by decide⟩
  exact ⟨h.2, h.1⟩

/-- C6: when the 10-second timer of a still-pending save fires, the
caller's promise is rejected with the timeout error and the pending
slot is cleared, after which a fresh `saveReplayBuffer` registers a new
pending operation and triggers the engine again. -/
theorem saveReplayBuffer_timeout_clears_pending (st : ObsState) (id id2 : ℕ)
    (hp : st.pendingReplaySave = some id) (ha : id ∈ st.armed)
    (hinit : st.initialized = true) (hrun : st.replayBufferRunning = true) :
    (timeoutFire id st).pendingReplaySave = none ∧
    (timeoutFire id st).results =
      (id, SaveOutcome.rejected "Replay save timeout - no response from OBS") :: st.results ∧
    (saveReplayBuffer id2 (timeoutFire id st)).pendingReplaySave = some id2 ∧
    id2 ∈ (saveReplayBuffer id2 (timeoutFire id st)).armed ∧
    (saveReplayBuffer id2 (timeoutFire id st)).triggers = st.triggers + 1 := by
  have ht : timeoutFire id st =
      { st with armed := st.armed.erase id
                pendingReplaySave := none
                results := (id, SaveOutcome.rejected
                  "Replay save timeout - no response from OBS") :: st.results } := by
    unfold timeoutFire
    rw [if_pos ha]
    simp only [hp]
  rw [ht]
  unfold saveReplayBuffer
  simp [hinit, hrun]

/-- Witness for C6 on a concrete pending state. -/
theorem saveReplayBuffer_timeout_clears_pending_witness :
    (timeoutFire 1 ⟨true, true, false, false, some 1, [1], [], none, 1⟩).pendingReplaySave =
      none ∧
    (timeoutFire 1 ⟨true, true, false, false, some 1, [1], [], none, 1⟩).results =
      [(1, SaveOutcome.rejected "Replay save timeout - no response from OBS")] ∧
    (saveReplayBuffer 2
      (timeoutFire 1 ⟨true, true, false, false, some 1, [1], [], none, 1⟩)).pendingReplaySave =
      some 2 := by
  have h := saveReplayBuffer_timeout_clears_pending
    ⟨true, true, false, false, some 1, [1], [], none, 1⟩ 1 2 rfl (by decide) rfl rfl
  exact ⟨h.1, h.2.1, h.2.2.1⟩

/-- C7: a `Wrote` signal with a pending save resolves it exactly once
with the reported path after rename normalization (a leading `Replay`
prefix becomes `LuminReplay`), clears the pending slot and disarms that
save's timeout; a further `Wrote` or `WriteError` signal with no
pending save settles nothing. -/
theorem handleOutputSignal_wrote_resolves_once (st1 : ObsState) (j : ℕ) (p q : RPath)
    (e : String) (hp : st1.pendingReplaySave = some j)
    (st2 : ObsState) (h2 : st2.pendingReplaySave = none) :
    ((handleOutputSignal (ObsSignal.wrote p) st1).1.results =
       (j, SaveOutcome.resolved (normalizeReplayPath p)) :: st1.results ∧
     (handleOutputSignal (ObsSignal.wrote p) st1).1.pendingReplaySave = none ∧
     (handleOutputSignal (ObsSignal.wrote p) st1).1.armed = st1.armed.erase j ∧
     (handleOutputSignal (ObsSignal.wrote q)
        (handleOutputSignal (ObsSignal.wrote p) st1).1).1.results =
       (handleOutputSignal (ObsSignal.wrote p) st1).1.results ∧
     (handleOutputSignal (ObsSignal.writeError e)
        (handleOutputSignal (ObsSignal.wrote p) st1).1).1.results =
       (handleOutputSignal (ObsSignal.wrote p) st1).1.results) ∧
    (∀ r : RPath, "Replay".toList.isPrefixOf r.base.toList = true →
       normalizeReplayPath r = ⟨r.dir, "LuminReplay" ++ r.base.drop 6⟩) ∧
    (∀ r : RPath, "Replay".toList.isPrefixOf r.base.toList = false →
       normalizeReplayPath r = r) ∧
    ((handleOutputSignal (ObsSignal.wrote q) st2).1.pendingReplaySave = none ∧
     (handleOutputSignal (ObsSignal.wrote q) st2).1.results = st2.results ∧
     (handleOutputSignal (ObsSignal.wrote q) st2).1.armed = st2.armed ∧
     (handleOutputSignal (ObsSignal.writeError e) st2).1 = st2) := by
  have hw : (handleOutputSignal (ObsSignal.wrote p) st1).1 =
      { st1 with lastReplayPath := some (normalizeReplayPath p)
                 pendingReplaySave := none
                 armed := st1.armed.erase j
                 results := (j, SaveOutcome.resolved (normalizeReplayPath p)) ::
                   st1.results } := by
    unfold handleOutputSignal
    simp only [hp]
  refine ⟨⟨?_, ?_, ?_, ?_, ?_⟩, ?_, ?_, ⟨?_, ?_, ?_, ?_⟩⟩
  · rw [hw]
  · rw [hw]
  · rw [hw]
  · rw [hw]; unfold handleOutputSignal; simp only []
  · rw [hw]; unfold handleOutputSignal; simp only []
  · intro r hr; unfold normalizeReplayPath; rw [hr]; simp
  · intro r hr; unfold normalizeReplayPath; rw [hr]; simp
  · unfold handleOutputSignal; simp only [h2]
  · unfold handleOutputSignal; simp only [h2]
  · unfold handleOutputSignal; simp only [h2]
  · unfold handleOutputSignal; simp only [h2]

/-- Witness for C7: a pending save resolved by a `Wrote` carrying a
default-named file, and a pending-free state ignoring both signals. -/
theorem handleOutputSignal_wrote_resolves_once_witness :
    (handleOutputSignal (ObsSignal.wrote ⟨"d", "Replay 1.mp4"⟩)
        ⟨true, true, false, false, some 5, [5], [], none, 1⟩).1.results =
      [(5, SaveOutcome.resolved
        (normalizeReplayPath ⟨"d", "Replay 1.mp4"⟩))] ∧
    normalizeReplayPath ⟨"d", "Replay 1.mp4"⟩ =
      ⟨"d", "LuminReplay" ++ String.drop "Replay 1.mp4" 6⟩ ∧
    (handleOutputSignal (ObsSignal.wrote ⟨"d", "x.mp4"⟩)
        ⟨true, true, false, false, none, [], [], none, 0⟩).1.results = [] ∧
    (handleOutputSignal (ObsSignal.writeError "err")
        ⟨true, true, false, false, none, [], [], none, 0⟩).1 =
      ⟨true, true, false, false, none, [], [], none, 0⟩ := by
  have h := handleOutputSignal_wrote_resolves_once
    ⟨true, true, false, false, some 5, [5], [], none, 1⟩ 5
    ⟨"d", "Replay 1.mp4"⟩ ⟨"d", "x.mp4"⟩ "err" rfl
    ⟨true, true, false, false, none, [], [], none, 0⟩ rfl
  exact ⟨h.1.1, h.2.1 ⟨"d", "Replay 1.mp4"⟩ (by decide), h.2.2.2.2.1, h.2.2.2.2.2.2⟩

/-- C8: a replay-buffer `Stop` signal with the restart guard set and a
stop-wait pending resolves the wait and leaves the whole state (in
particular the running flag) unchanged; with the guard clear and no
stop-wait pending it sets the running flag to false. -/
theorem handleOutputSignal_stop_restart_guard (st1 st2 : ObsState)
    (h1a : st1.isRestarting = true) (h1b : st1.pendingStopWait = true)
    (h2a : st2.isRestarting = false) (h2b : st2.pendingStopWait = false) :
    (handleOutputSignal ObsSignal.stop st1).2 = true ∧
    (handleOutputSignal ObsSignal.stop st1).1 = st1 ∧
    (handleOutputSignal ObsSignal.stop st1).1.replayBufferRunning =
      st1.replayBufferRunning ∧
    (handleOutputSignal ObsSignal.stop st2).2 = false ∧
    (handleOutputSignal ObsSignal.stop st2).1.replayBufferRunning = false := by
  unfold handleOutputSignal
  simp [h1b, h2a, h2b]

/-- Witness for C8 on concrete restarting and idle states. -/
theorem handleOutputSignal_stop_restart_guard_witness :
    (handleOutputSignal ObsSignal.stop
      ⟨true, true, true, true, none, [], [], none, 0⟩).2 = true ∧
    (handleOutputSignal ObsSignal.stop
      ⟨true, true, true, true, none, [], [], none, 0⟩).1.replayBufferRunning = true ∧
    (handleOutputSignal ObsSignal.stop
      ⟨true, true, false, false, none, [], [], none, 0⟩).1.replayBufferRunning = false := by
  have h := handleOutputSignal_stop_restart_guard
    ⟨true, true, true, true, none, [], [], none, 0⟩
    ⟨true, true, false, false, none, [], [], none, 0⟩ rfl rfl rfl rfl
  exact ⟨h.1, h.2.2.1, h.2.2.2.2⟩

/-- C9: a second `saveReplayBuffer` while one is pending silently
overwrites the single pending slot, so a later `Wrote` or `WriteError`
settles only the second caller; the first caller's promise can be
settled by no event other than its own timeout firing, which does
reject it with the timeout error. -/
theorem saveReplayBuffer_overlapping_requests (st : ObsState) (id1 id2 : ℕ) (p : RPath)
    (e : String) (hinit : st.initialized = true) (hrun : st.replayBufferRunning = true)
    (hne : id1 ≠ id2) :
    (saveReplayBuffer id1 st).pendingReplaySave = some id1 ∧
    (saveReplayBuffer id2 (saveReplayBuffer id1 st)).pendingReplaySave = some id2 ∧
    (handleOutputSignal (ObsSignal.wrote p)
        (saveReplayBuffer id2 (saveReplayBuffer id1 st))).1.results =
      (id2, SaveOutcome.resolved (normalizeReplayPath p)) ::
        (saveReplayBuffer id2 (saveReplayBuffer id1 st)).results ∧
    (handleOutputSignal (ObsSignal.writeError e)
        (saveReplayBuffer id2 (saveReplayBuffer id1 st))).1.results =
      (id2, SaveOutcome.rejected (if e = "" then "Write error" else e)) ::
        (saveReplayBuffer id2 (saveReplayBuffer id1 st)).results ∧
    (∀ ev : ObsEvent, ev ≠ ObsEvent.timeoutFire id1 →
        settledFor id1 (obsStep ev (saveReplayBuffer id2 (saveReplayBuffer id1 st))) =
          settledFor id1 (saveReplayBuffer id2 (saveReplayBuffer id1 st))) ∧
    (timeoutFire id1 (saveReplayBuffer id2 (saveReplayBuffer id1 st))).results =
      (id1, SaveOutcome.rejected "Replay save timeout - no response from OBS") ::
        (saveReplayBuffer id2 (saveReplayBuffer id1 st)).results := by
  have h1 : saveReplayBuffer id1 st =
      { st with pendingReplaySave := some id1
                armed := id1 :: st.armed
                triggers := st.triggers + 1 } := by
    unfold saveReplayBuffer
    simp [hinit, hrun]
  have h2 : saveReplayBuffer id2 (saveReplayBuffer id1 st) =
      { st with pendingReplaySave := some id2
                armed := id2 :: id1 :: st.armed
                triggers := st.triggers + 1 + 1 } := by
    rw [h1]
    unfold saveReplayBuffer
    simp [hinit, hrun]
  have hne2 : (id2 == id1) = false := beq_eq_false_iff_ne.mpr (Ne.symm hne)
  refine ⟨?_, ?_, ?_, ?_, ?_, ?_⟩
  · rw [h1]
  · rw [h2]
  · rw [h2]; unfold handleOutputSignal; simp only []
  · rw [h2]; unfold handleOutputSignal; simp only []
  · intro ev hev
    cases ev with
    | request id =>
        show settledFor id1 (saveReplayBuffer id _) = _
        rw [h2]
        unfold saveReplayBuffer
        simp [hinit, hrun, settledFor]
    | timeoutFire k =>
        have hk : k ≠ id1 := by
          intro hcon
          exact hev (by rw [hcon])
        have hkb : (k == id1) = false := beq_eq_false_iff_ne.mpr hk
        show settledFor id1 (timeoutFire k _) = _
        rw [h2]
        unfold timeoutFire
        split
        · simp [settledFor, List.filter_cons, hkb]
        · rfl
    | signal s =>
        cases s with
        | start =>
            show settledFor id1 ((handleOutputSignal ObsSignal.start _).1) = _
            rw [h2]
            rfl
        | stop =>
            show settledFor id1 ((handleOutputSignal ObsSignal.stop _).1) = _
            rw [h2]
            unfold handleOutputSignal
            simp only []
            split
            · rfl
            · split <;> rfl
        | wrote r =>
            show settledFor id1 ((handleOutputSignal (ObsSignal.wrote r) _).1) = _
            rw [h2]
            unfold handleOutputSignal
            simp only []
            simp [settledFor, List.filter_cons, hne2]
        | writeError err =>
            show settledFor id1 ((handleOutputSignal (ObsSignal.writeError err) _).1) = _
            rw [h2]
            unfold handleOutputSignal
            simp only []
            simp [settledFor, List.filter_cons, hne2]
  · rw [h2]
    unfold timeoutFire
    rw [if_pos (List.mem_cons_of_mem id2 (List.mem_cons_self id1 st.armed))]

/-- Witness for C9 on a concrete idle state with requests 1 and 2. -/
theorem saveReplayBuffer_overlapping_requests_witness :
    (saveReplayBuffer 2 (saveReplayBuffer 1
      ⟨true, true, false, false, none, [], [], none, 0⟩)).pendingReplaySave = some 2 ∧
    settledFor 1 (obsStep (ObsEvent.signal (ObsSignal.wrote ⟨"d", "a.mp4"⟩))
        (saveReplayBuffer 2 (saveReplayBuffer 1
          ⟨true, true, false, false, none, [], [], none, 0⟩))) =
      settledFor 1 (saveReplayBuffer 2 (saveReplayBuffer 1
        ⟨true, true, false, false, none, [], [], none, 0⟩)) ∧
    (timeoutFire 1 (saveReplayBuffer 2 (saveReplayBuffer 1
        ⟨true, true, false, false, none, [], [], none, 0⟩))).results =
      (1, SaveOutcome.rejected "Replay save timeout - no response from OBS") ::
        (saveReplayBuffer 2 (saveReplayBuffer 1
          ⟨true, true, false, false, none, [], [], none, 0⟩)).results := by
  have h := saveReplayBuffer_overlapping_requests
    ⟨true, true, false, false, none, [], [], none, 0⟩ 1 2 ⟨"d", "a.mp4"⟩ "x" rfl rfl
    (by decide)
  exact ⟨h.2.1, h.2.2.2.2.1 (ObsEvent.signal (ObsSignal.wrote ⟨"d", "a.mp4"⟩)) (by decide),
    h.2.2.2.2.2⟩

/-- C10: `saveReplayBuffer` fails immediately when the engine is not
initialized or the buffer is not running, with one of the two
not-running precondition errors, registering no pending operation,
arming no timer and never triggering the engine's save action. -/
theorem saveReplayBuffer_preconditions (st : ObsState) (id : ℕ)
    (h : st.initialized = false ∨ st.replayBufferRunning = false) :
    (saveReplayBuffer id st).pendingReplaySave = st.pendingReplaySave ∧
    (saveReplayBuffer id st).armed = st.armed ∧
    (saveReplayBuffer id st).triggers = st.triggers ∧
    (saveReplayBuffer id st).results =
      (id, SaveOutcome.rejected
        (if st.initialized = false then "OBS not initialized"
         else "Replay buffer is not running")) :: st.results := by
  unfold saveReplayBuffer
  rcases h with h | h
  · simp [h]
  · by_cases hinit : st.initialized = false
    · simp [hinit]
    · simp [hinit, h]

/-- Witness for C10 on an uninitialized state. -/
theorem saveReplayBuffer_preconditions_witness :
    (saveReplayBuffer 7 ⟨false, false, false, false, none, [], [], none, 0⟩).pendingReplaySave =
      none ∧
    (saveReplayBuffer 7 ⟨false, false, false, false, none, [], [], none, 0⟩).triggers = 0 ∧
    (saveReplayBuffer 7 ⟨false, false, false, false, none, [], [], none, 0⟩).results =
      [(7, SaveOutcome.rejected "OBS not initialized")] := by
  have h := saveReplayBuffer_preconditions
    ⟨false, false, false, false, none, [], [], none, 0⟩ 7 (Or.inl rfl)
  exact ⟨h.1, h.2.2.1, h.2.2.2.trans (by decide)⟩

end LuminReplay
